import Mathlib

/-!
Verification of the floating-panel view-placement subsystem
(`src/vs/workbench/services/floatingPanel/browser/floatingPanelService.ts` and
`src/vs/workbench/contrib/floatingPanel/browser/floatingPanel.contribution.ts`).

The service is embedded as a state machine over a `World` record that holds the
manager's two maps (`floatingPanels` keyed by panel id, `floatingPanelsByViewId`
keyed by view id), the static id counter, the auxiliary-window provider state
(next window id, which windows have fired their `unload` event, the live
`onUnload` subscriptions), event logs for `onDidOpenFloatingPanel` /
`onDidCloseFloatingPanel`, and call logs for the external collaborators
(window-provider `open` calls, `window.focus()` calls, view-registry
`moveViewToLocation` calls).  JavaScript `Map` objects are embedded as
insertion-ordered association lists with overwriting `set`.

`openFloatingPanel` suspends exactly once, at `await auxiliaryWindowService.open`;
the embedding therefore splits it into the synchronous prefix (the
"already floating" check plus the provider request) and the synchronous suffix
(panel construction, map insertion, event firing), so interleavings of
overlapping calls can be examined at that suspension point.
-/

namespace FloatingPanelSpec

/-! ### Injectivity of the decimal rendering used by panel ids

Panel ids are the strings `floating-panel-${FloatingPanel._idCounter++}`.
Freshness of newly allocated ids reduces to injectivity of `Nat.repr`,
proved here by a fold that reads the decimal digits back. -/

/-- Reads a list of decimal digit characters back into the number they denote. -/
def digitsVal (l : List Char) : Nat :=
  l.foldl (fun a c => 10 * a + (c.toNat - 48)) 0

/-- The id string `floating-panel-${n}` assigned by the `FloatingPanel`
constructor from the static counter. -/
def mkPanelId (n : Nat) : String :=
  "floating-panel-" ++ Nat.repr n

/-! ### Data model -/

/-- Dock locations, from `ViewContainerLocation` in `views.ts`. -/
inductive ViewContainerLoc where
  | Sidebar
  | Panel
  | AuxiliaryBar
deriving DecidableEq

/-- Window bounds, the `{ width, height }` records passed to the Window
Provider's `open`. -/
structure Dimension where
  width : Nat
  height : Nat
deriving DecidableEq

/-- The slice of a view descriptor the subsystem reads: its display name and
its `canMoveView` flag. -/
structure ViewDescriptor where
  name : String
  canMoveView : Bool
deriving DecidableEq

/-- The `FloatingPanel` entity: `idNum` is the value the static counter had at
construction (the source renders it as the id string `floating-panel-${idNum}`,
recovered here by `FloatingPanel.id`), `viewId` the hosted view, `windowId`
the auxiliary window owned by the panel. -/
structure FloatingPanel where
  idNum : Nat
  viewId : String
  windowId : Nat
deriving DecidableEq

/-- `panel.id`, the string assigned in the `FloatingPanel` constructor. -/
def FloatingPanel.id (p : FloatingPanel) : String := mkPanelId p.idNum

/-! ### JavaScript `Map` embedding: insertion-ordered association lists -/

/-- `Map.get`. -/
def mapGet {α : Type} (k : String) : List (String × α) → Option α
  | [] => none
  | (k', v) :: rest => if k' = k then some v else mapGet k rest

/-- `Map.set`: overwrites in place if the key is present, else appends. -/
def mapSet {α : Type} (k : String) (v : α) : List (String × α) → List (String × α)
  | [] => [(k, v)]
  | (k', v') :: rest => if k' = k then (k, v) :: rest else (k', v') :: mapSet k v rest

/-- `Map.delete`. -/
def mapDelete {α : Type} (k : String) : List (String × α) → List (String × α)
  | [] => []
  | (k', v) :: rest => if k' = k then mapDelete k rest else (k', v) :: mapDelete k rest

/-! ### The service state

One record holds the `FloatingPanelService` fields, the auxiliary-window
provider state and the collaborator call logs.  The fields named after the
source are direct translations; the rest record externally observable effects:

* `floatingPanels`, `floatingPanelsByViewId`: the two private `Map`s.
* `idCounter`: `FloatingPanel._idCounter` (the static id counter).
* `nextWindowId`: the provider's supply of fresh windows; window ids are
  allocated sequentially by `auxiliaryWindowService.open`.
* `unloadFired`: windows whose `onUnload` event has fired.  The provider
  guarantees `unload` fires exactly once per window, at or before destruction,
  so `window.dispose()` fires it synchronously unless it already fired.
* `subs`: the live `window.onUnload` subscriptions registered by the
  `FloatingPanel` constructor (window id paired with the subscribed panel);
  an entry is removed when the panel's own disposables are disposed.
* `openedEvents` / `closedEvents`: logs of `onDidOpenFloatingPanel` /
  `onDidCloseFloatingPanel` firings.
* `openCalls`: bounds of each `auxiliaryWindowService.open` call.
* `focusCalls`: window ids of each `window.window.focus()` call.
* `moveCalls`: arguments of each `viewDescriptorService.moveViewToLocation`
  call.
* `registry`: the external `IViewDescriptorService.getViewDescriptorById`. -/

structure World where
  registry : String → Option ViewDescriptor
  floatingPanels : List (String × FloatingPanel) := []
  floatingPanelsByViewId : List (String × FloatingPanel) := []
  idCounter : Nat := 0
  nextWindowId : Nat := 0
  unloadFired : List Nat := []
  subs : List (Nat × FloatingPanel) := []
  openedEvents : List FloatingPanel := []
  closedEvents : List FloatingPanel := []
  openCalls : List Dimension := []
  focusCalls : List Nat := []
  moveCalls : List (ViewDescriptor × ViewContainerLoc × String) := []

/-! ### Operations, translated from `floatingPanelService.ts` -/

/-- `FloatingPanelService.handlePanelClosed`: remove the panel from both maps
and fire `onDidCloseFloatingPanel`. -/
def handlePanelClosed (p : FloatingPanel) (w : World) : World :=
  { w with
    floatingPanels := mapDelete p.id w.floatingPanels
    floatingPanelsByViewId := mapDelete p.viewId w.floatingPanelsByViewId
    closedEvents := w.closedEvents ++ [p] }

/-- The provider fires window `wid`'s `unload` event: each still-subscribed
`onUnload` listener for that window runs (the `FloatingPanel` constructor's
listener calls `handlePanelClosed`).  A window that does not exist, or whose
`unload` already fired, fires nothing — the provider fires `unload` exactly
once per window. -/
def fireUnload (wid : Nat) (w : World) : World :=
  if wid < w.nextWindowId ∧ wid ∉ w.unloadFired then
    (w.subs.filter (fun s => s.1 == wid)).foldl
      (fun acc s => handlePanelClosed s.2 acc)
      { w with unloadFired := wid :: w.unloadFired }
  else w

/-- `FloatingPanel.dispose` (also reached from `close()`):
`this.window.dispose()` — which makes the window fire its `unload` event at or
before destruction completes — followed by `super.dispose()`, which disposes
the registered `onUnload` subscription. -/
def panelClose (p : FloatingPanel) (w : World) : World :=
  let w1 := fireUnload p.windowId w
  { w1 with subs := w1.subs.filter (fun s => s.2 != p) }

/-- `FloatingPanel.bringToFront`: `this.window.window.focus()`. -/
def bringToFront (p : FloatingPanel) (w : World) : World :=
  { w with focusCalls := w.focusCalls ++ [p.windowId] }

/-- `auxiliaryWindowService.open`: allocates a fresh window and logs the
requested bounds. -/
def providerOpen (bounds : Dimension) (w : World) : Nat × World :=
  (w.nextWindowId,
    { w with
      nextWindowId := w.nextWindowId + 1
      openCalls := w.openCalls ++ [bounds] })

/-- `IFloatingPanelOpenOptions`: view id, optional title, optional bounds. -/
structure FloatingPanelOpenOptions where
  viewId : String
  title : Option String := none
  bounds : Option Dimension := none
deriving DecidableEq

/-- The service-level default bounds `{ width: 400, height: 300 }`. -/
def defaultServiceBounds : Dimension := ⟨400, 300⟩

/-- The synchronous suffix of `openFloatingPanel` after
`await auxiliaryWindowService.open` resolves to window `wid`: construct the
`FloatingPanel` (allocating its id from the static counter and subscribing to
the window's `unload`), insert it into both maps, fire
`onDidOpenFloatingPanel`, return the panel. -/
def openResume (viewId : String) (wid : Nat) (w : World) : FloatingPanel × World :=
  let p : FloatingPanel := { idNum := w.idCounter, viewId := viewId, windowId := wid }
  (p,
    { w with
      idCounter := w.idCounter + 1
      subs := w.subs ++ [(wid, p)]
      floatingPanels := mapSet p.id p w.floatingPanels
      floatingPanelsByViewId := mapSet viewId p w.floatingPanelsByViewId
      openedEvents := w.openedEvents ++ [p] })

/-- `FloatingPanelService.openFloatingPanel`, successful provider path: if a
panel already exists for the view id, bring it to front and return it;
otherwise request a window (default bounds if none given) and run the
post-await suffix. -/
def openFloatingPanel (opts : FloatingPanelOpenOptions) (w : World) :
    FloatingPanel × World :=
  match mapGet opts.viewId w.floatingPanelsByViewId with
  | some existing => (existing, bringToFront existing w)
  | none =>
      let r := providerOpen (opts.bounds.getD defaultServiceBounds) w
      openResume opts.viewId r.1 r.2

/-- `FloatingPanelService.openFloatingPanel` when
`await auxiliaryWindowService.open` rejects: the error propagates to the
caller; the statements after the `await` (panel construction, map insertion,
event firing) never run. -/
def openFloatingPanelFail (opts : FloatingPanelOpenOptions) (w : World) :
    Except String FloatingPanel × World :=
  match mapGet opts.viewId w.floatingPanelsByViewId with
  | some existing => (.ok existing, bringToFront existing w)
  | none => (.error "auxiliary window open failed", w)

/-- `FloatingPanelService.closeFloatingPanel`. -/
def closeFloatingPanel (panelId : String) (w : World) : World :=
  match mapGet panelId w.floatingPanels with
  | some p => panelClose p w
  | none => w

/-- `FloatingPanelService.getFloatingPanel`. -/
def getFloatingPanel (panelId : String) (w : World) : Option FloatingPanel :=
  mapGet panelId w.floatingPanels

/-- `FloatingPanelService.getFloatingPanelByViewId`. -/
def getFloatingPanelByViewId (viewId : String) (w : World) : Option FloatingPanel :=
  mapGet viewId w.floatingPanelsByViewId

/-- `FloatingPanelService.getAllFloatingPanels`. -/
def getAllFloatingPanels (w : World) : List FloatingPanel :=
  w.floatingPanels.map Prod.snd

/-- `FloatingPanelService.isViewFloating`. -/
def isViewFloating (viewId : String) (w : World) : Bool :=
  (mapGet viewId w.floatingPanelsByViewId).isSome

/-- `FloatingPanelService.dockFloatingPanel`: no-op for an unknown panel id;
otherwise consult the registry and, if the descriptor exists and
`canMoveView`, call `moveViewToLocation (descriptor, location, 'dock')`; in
every case close the panel. -/
def dockFloatingPanel (panelId : String) (loc : ViewContainerLoc) (w : World) :
    World :=
  match mapGet panelId w.floatingPanels with
  | none => w
  | some p =>
      let w1 :=
        match w.registry p.viewId with
        | some d =>
            if d.canMoveView then
              { w with moveCalls := w.moveCalls ++ [(d, loc, "dock")] }
            else w
        | none => w
      panelClose p w1

/-! ### The Float command, translated from `floatingPanel.contribution.ts` -/

/-- `FloatViewAction.run`.  `viewIdArg` is the optional explicit argument;
`focusedViewName` is what `viewsService.getFocusedViewName()` returns.  When
no explicit view id is given the source checks for a focused view and then
returns without acting in either case (the `focusedView` branch contains only
a comment and a `return`). -/
def floatViewRun (viewIdArg : Option String) (focusedViewName : Option String)
    (w : World) : World :=
  match viewIdArg with
  | none =>
      match focusedViewName with
      | some _ => w
      | none => w
  | some viewId =>
      match w.registry viewId with
      | none => w
      | some d =>
          if isViewFloating viewId w then
            match getFloatingPanelByViewId viewId w with
            | some p => bringToFront p w
            | none => w
          else
            (openFloatingPanel
              { viewId := viewId, title := some d.name,
                bounds := some ⟨500, 400⟩ } w).2

/-! ### Sequential execution -/

/-- The sequential manager operations (plus the externally triggered window
`unload`, which can arrive at any point). -/
inductive Op where
  | openOk (opts : FloatingPanelOpenOptions)
  | openFail (opts : FloatingPanelOpenOptions)
  | close (panelId : String)
  | dock (panelId : String) (loc : ViewContainerLoc)
  | extUnload (windowId : Nat)

def step (w : World) (op : Op) : World :=
  match op with
  | .openOk opts => (openFloatingPanel opts w).2
  | .openFail opts => (openFloatingPanelFail opts w).2
  | .close pid => closeFloatingPanel pid w
  | .dock pid loc => dockFloatingPanel pid loc w
  | .extUnload wid => fireUnload wid w

/-- The freshly constructed service: empty maps, counter at zero. -/
def initWorld (reg : String → Option ViewDescriptor) : World :=
  { registry := reg }

/-- Runs a sequence of operations on a freshly constructed service. -/
def run (reg : String → Option ViewDescriptor) (ops : List Op) : World :=
  ops.foldl step (initWorld reg)

/-- A concrete registry used for witnesses: one relocatable view. -/
def testReg : String → Option ViewDescriptor :=
  fun v => if v = "explorer" then some ⟨"Explorer", true⟩ else none

/-! ### The inductive invariant of sequential execution -/

/-- The inductive invariant maintained by every sequential manager operation.
`openedEvents` is an append-only log of every panel ever created, so the first
two fields say that panel ids and window ids are allocated sequentially and
never reused; the map fields say both maps hold exactly the created panels
whose window has not yet unloaded, keyed consistently; the subscription fields
say every live panel still has its `onUnload` listener attached; the closed
fields say `onDidCloseFloatingPanel` has fired exactly for the panels whose
window has unloaded, once each. -/
structure Inv (w : World) : Prop where
  ids_eq : w.openedEvents.map FloatingPanel.idNum = List.range w.idCounter
  wids_eq : w.openedEvents.map FloatingPanel.windowId = List.range w.nextWindowId
  fired_lt : ∀ x ∈ w.unloadFired, x < w.nextWindowId
  byId_key : ∀ e ∈ w.floatingPanels, e.1 = e.2.id
  byView_key : ∀ e ∈ w.floatingPanelsByViewId, e.1 = e.2.viewId
  byId_nodup : (w.floatingPanels.map Prod.fst).Nodup
  byView_nodup : (w.floatingPanelsByViewId.map Prod.fst).Nodup
  byId_opened : ∀ e ∈ w.floatingPanels, e.2 ∈ w.openedEvents
  byView_opened : ∀ e ∈ w.floatingPanelsByViewId, e.2 ∈ w.openedEvents
  byId_live : ∀ e ∈ w.floatingPanels, e.2.windowId ∉ w.unloadFired
  byView_live : ∀ e ∈ w.floatingPanelsByViewId, e.2.windowId ∉ w.unloadFired
  live_byId : ∀ p ∈ w.openedEvents, p.windowId ∉ w.unloadFired →
    mapGet p.id w.floatingPanels = some p
  live_byView : ∀ p ∈ w.openedEvents, p.windowId ∉ w.unloadFired →
    mapGet p.viewId w.floatingPanelsByViewId = some p
  subs_opened : ∀ s ∈ w.subs, s.2 ∈ w.openedEvents ∧ s.1 = s.2.windowId
  subs_nodup : (w.subs.map Prod.fst).Nodup
  live_subs : ∀ p ∈ w.openedEvents, p.windowId ∉ w.unloadFired →
    (p.windowId, p) ∈ w.subs
  closed_opened : ∀ p ∈ w.closedEvents, p ∈ w.openedEvents ∧ p.windowId ∈ w.unloadFired
  fired_closed : ∀ p ∈ w.openedEvents, p.windowId ∈ w.unloadFired → p ∈ w.closedEvents
  closed_nodup : w.closedEvents.Nodup

/-- The state reached when live panel `p`'s window fires `unload`: the window
is marked unloaded and `handlePanelClosed p` has removed the panel from both
maps and fired `onDidCloseFloatingPanel`.  (`p`'s subscription entry survives
until `super.dispose()`, which only the explicit-close path runs.) -/
def closedWorld (p : FloatingPanel) (w : World) : World :=
  { w with
    unloadFired := p.windowId :: w.unloadFired
    floatingPanels := mapDelete p.id w.floatingPanels
    floatingPanelsByViewId := mapDelete p.viewId w.floatingPanelsByViewId
    closedEvents := w.closedEvents ++ [p] }

/-- The registry-consultation step of `dockFloatingPanel`: call
`moveViewToLocation (descriptor, location, 'dock')` when the descriptor exists
and is `canMoveView`, otherwise leave the state alone. -/
def dockRelocate (p : FloatingPanel) (loc : ViewContainerLoc) (w : World) : World :=
  match w.registry p.viewId with
  | some d =>
      if d.canMoveView then
        { w with moveCalls := w.moveCalls ++ [(d, loc, "dock")] }
      else w
  | none => w

/-! ### Claim-level definitions -/

/-- The map-consistency property of the spec (§3): every panel stored in
`panelsByViewId` appears in `panelsById` under its own id and vice versa, and
no two entries of either map hold panels with the same `viewId`. -/
def MapsConsistent (w : World) : Prop :=
  (∀ e ∈ w.floatingPanelsByViewId, mapGet e.2.id w.floatingPanels = some e.2) ∧
  (∀ e ∈ w.floatingPanels, mapGet e.2.viewId w.floatingPanelsByViewId = some e.2) ∧
  (∀ e₁ ∈ w.floatingPanels, ∀ e₂ ∈ w.floatingPanels,
    e₁.2.viewId = e₂.2.viewId → e₁ = e₂) ∧
  (∀ e₁ ∈ w.floatingPanelsByViewId, ∀ e₂ ∈ w.floatingPanelsByViewId,
    e₁.2.viewId = e₂.2.viewId → e₁ = e₂)

/-- The interleaving of two `openFloatingPanel("explorer")` calls that overlap
at the `await auxiliaryWindowService.open` suspension point: both calls pass
the "already floating" check before either resumes, then both run the
post-await suffix.  `providerOpen`/`openResume` are exactly the code on the
two sides of the `await`. -/
def raceWorld : World :=
  let w0 := initWorld testReg
  let a := providerOpen defaultServiceBounds w0
  let b := providerOpen defaultServiceBounds a.2
  let ra := openResume "explorer" a.1 b.2
  (openResume "explorer" b.1 ra.2).2

/-- A world with one floating panel for `"explorer"`, used by witnesses. -/
def oneOpenWorld : World :=
  run testReg [Op.openOk { viewId := "explorer" }]

/-- The panel created first by `oneOpenWorld` (and by `raceWorld`'s call A). -/
def panel0 : FloatingPanel := ⟨0, "explorer", 0⟩

theorem digitChar_toNat : ∀ d < 10, (Nat.digitChar d).toNat = 48 + d := by decide

theorem toDigitsCore_append (fuel : Nat) :
    ∀ (n : Nat) (ds : List Char),
      Nat.toDigitsCore 10 fuel n ds = Nat.toDigitsCore 10 fuel n [] ++ ds := by
  induction fuel with
  | zero => intro n ds; simp [Nat.toDigitsCore]
  | succ fuel ih =>
    intro n ds
    simp only [Nat.toDigitsCore]
    by_cases h : n / 10 = 0
    · simp [h]
    · simp only [if_neg h]
      rw [ih (n / 10) [Nat.digitChar (n % 10)],
        ih (n / 10) (Nat.digitChar (n % 10) :: ds), List.append_assoc]
      rfl

theorem digitsVal_append_singleton (l : List Char) (c : Char) :
    digitsVal (l ++ [c]) = 10 * digitsVal l + (c.toNat - 48) := by
  simp [digitsVal, List.foldl_append]

theorem digitsVal_toDigitsCore (fuel : Nat) :
    ∀ n < 10 ^ fuel, digitsVal (Nat.toDigitsCore 10 fuel n []) = n := by
  induction fuel with
  | zero =>
    intro n hn
    interval_cases n
    simp [Nat.toDigitsCore, digitsVal]
  | succ fuel ih =>
    intro n hn
    by_cases h : n / 10 = 0
    · have hlt : n < 10 := (Nat.div_eq_zero_iff (by norm_num)).mp h
      have heq : Nat.toDigitsCore 10 (fuel + 1) n [] = [Nat.digitChar (n % 10)] := by
        simp [Nat.toDigitsCore, h]
      have hval : (Nat.digitChar n).toNat = 48 + n := digitChar_toNat n hlt
      rw [heq, Nat.mod_eq_of_lt hlt]
      simp only [digitsVal, List.foldl_cons, List.foldl_nil, hval]
      omega
    · have heq : Nat.toDigitsCore 10 (fuel + 1) n [] =
          Nat.toDigitsCore 10 fuel (n / 10) [Nat.digitChar (n % 10)] := by
        simp [Nat.toDigitsCore, h]
      rw [heq, toDigitsCore_append, digitsVal_append_singleton]
      have hdiv : n / 10 < 10 ^ fuel := by
        rw [Nat.div_lt_iff_lt_mul (by norm_num : (0 : Nat) < 10)]
        calc n < 10 ^ (fuel + 1) := hn
          _ = 10 ^ fuel * 10 := by rw [pow_succ]
      rw [ih (n / 10) hdiv, digitChar_toNat (n % 10) (Nat.mod_lt _ (by norm_num))]
      omega

theorem digitsVal_toDigits (n : Nat) : digitsVal (Nat.toDigits 10 n) = n := by
  have hn : n < 10 ^ (n + 1) := by
    calc n < 10 ^ n := Nat.lt_pow_self (by norm_num) n
      _ ≤ 10 ^ (n + 1) := Nat.pow_le_pow_right (by norm_num) (Nat.le_succ n)
  exact digitsVal_toDigitsCore (n + 1) n hn

theorem natRepr_injective : Function.Injective Nat.repr := by
  intro m n h
  have hlist : Nat.toDigits 10 m = Nat.toDigits 10 n := List.asString_inj.mp h
  have := congrArg digitsVal hlist
  rwa [digitsVal_toDigits, digitsVal_toDigits] at this

theorem mkPanelId_injective : Function.Injective mkPanelId := by
  intro m n h
  have hdata : ("floating-panel-".data ++ (Nat.repr m).data) =
      ("floating-panel-".data ++ (Nat.repr n).data) := by
    have := congrArg String.data h
    simpa [mkPanelId, String.data_append] using this
  have hrepr : (Nat.repr m).data = (Nat.repr n).data :=
    List.append_cancel_left hdata
  have : Nat.toDigits 10 m = Nat.toDigits 10 n := hrepr
  have := congrArg digitsVal this
  rwa [digitsVal_toDigits, digitsVal_toDigits] at this

theorem FloatingPanel.id_inj {p q : FloatingPanel} (h : p.id = q.id) :
    p.idNum = q.idNum := mkPanelId_injective h

theorem mapGet_eq_none_iff {α : Type} (k : String) (l : List (String × α)) :
    mapGet k l = none ↔ k ∉ l.map Prod.fst := by
  induction l with
  | nil => simp [mapGet]
  | cons e rest ih =>
    obtain ⟨k', v⟩ := e
    by_cases h : k' = k
    · subst h
      simp [mapGet]
    · have h' : k ≠ k' := fun hc => h hc.symm
      simp [mapGet, h, h', ih]

theorem mapGet_mem {α : Type} {k : String} {l : List (String × α)} {v : α}
    (h : mapGet k l = some v) : (k, v) ∈ l := by
  induction l with
  | nil => simp [mapGet] at h
  | cons e rest ih =>
    obtain ⟨k', v'⟩ := e
    by_cases hk : k' = k
    · subst hk
      simp [mapGet] at h
      simp [h]
    · simp [mapGet, hk] at h
      exact List.mem_cons_of_mem _ (ih h)

theorem mapGet_append_of_some {α : Type} {k : String} {l : List (String × α)}
    {v : α} (l' : List (String × α)) (h : mapGet k l = some v) :
    mapGet k (l ++ l') = some v := by
  induction l with
  | nil => simp [mapGet] at h
  | cons e rest ih =>
    obtain ⟨k', v'⟩ := e
    by_cases hk : k' = k <;> simp_all [mapGet, hk]

theorem mapGet_append_of_none {α : Type} {k : String} {l : List (String × α)}
    (l' : List (String × α)) (h : mapGet k l = none) :
    mapGet k (l ++ l') = mapGet k l' := by
  induction l with
  | nil => simp
  | cons e rest ih =>
    obtain ⟨k', v'⟩ := e
    by_cases hk : k' = k <;> simp_all [mapGet, hk]

theorem mapSet_of_not_mem {α : Type} {k : String} (v : α) {l : List (String × α)}
    (h : k ∉ l.map Prod.fst) : mapSet k v l = l ++ [(k, v)] := by
  induction l with
  | nil => rfl
  | cons e rest ih =>
    obtain ⟨k', v'⟩ := e
    simp only [List.map_cons, List.mem_cons] at h
    push_neg at h
    have h' : k' ≠ k := fun hc => h.1 hc.symm
    simp [mapSet, h', ih h.2]

theorem mapGet_delete_self {α : Type} (k : String) (l : List (String × α)) :
    mapGet k (mapDelete k l) = none := by
  induction l with
  | nil => rfl
  | cons e rest ih =>
    obtain ⟨k₀, v₀⟩ := e
    by_cases hk : k₀ = k <;> simp [mapDelete, mapGet, hk, ih]

theorem mapGet_delete_ne {α : Type} {k k' : String} (l : List (String × α))
    (h : k' ≠ k) : mapGet k' (mapDelete k l) = mapGet k' l := by
  induction l with
  | nil => rfl
  | cons e rest ih =>
    obtain ⟨k₀, v₀⟩ := e
    by_cases hk : k₀ = k
    · subst hk
      have hne : k₀ ≠ k' := fun hc => h hc.symm
      simp [mapDelete, mapGet, hne, ih]
    · by_cases hk' : k₀ = k' <;> simp [mapDelete, mapGet, hk, hk', h, ih]

theorem mem_mapDelete {α : Type} {k : String} {l : List (String × α)}
    {e : String × α} (h : e ∈ mapDelete k l) : e ∈ l := by
  induction l with
  | nil => simp [mapDelete] at h
  | cons e' rest ih =>
    obtain ⟨k₀, v₀⟩ := e'
    by_cases hk : k₀ = k
    · rw [mapDelete, if_pos hk] at h
      exact List.mem_cons_of_mem _ (ih h)
    · rw [mapDelete, if_neg hk] at h
      rcases List.mem_cons.mp h with h' | h'
      · exact h' ▸ List.mem_cons_self _ _
      · exact List.mem_cons_of_mem _ (ih h')

theorem mapDelete_keys_sublist {α : Type} (k : String) (l : List (String × α)) :
    ((mapDelete k l).map Prod.fst).Sublist (l.map Prod.fst) := by
  induction l with
  | nil => simp [mapDelete]
  | cons e rest ih =>
    obtain ⟨k₀, v₀⟩ := e
    by_cases hk : k₀ = k
    · rw [mapDelete, if_pos hk]
      exact ih.trans (List.sublist_cons_self _ _)
    · rw [mapDelete, if_neg hk, List.map_cons, List.map_cons]
      exact ih.cons₂ _

theorem nodup_keys_entry_ext {α : Type} {l : List (String × α)}
    (hnd : (l.map Prod.fst).Nodup) {e₁ e₂ : String × α}
    (h₁ : e₁ ∈ l) (h₂ : e₂ ∈ l) (hk : e₁.1 = e₂.1) : e₁ = e₂ :=
  List.inj_on_of_nodup_map hnd h₁ h₂ hk

theorem opened_idNum_lt {w : World} (hInv : Inv w) {p : FloatingPanel}
    (hp : p ∈ w.openedEvents) : p.idNum < w.idCounter := by
  have : p.idNum ∈ w.openedEvents.map FloatingPanel.idNum := List.mem_map_of_mem _ hp
  rw [hInv.ids_eq] at this
  exact List.mem_range.mp this

theorem opened_wid_lt {w : World} (hInv : Inv w) {p : FloatingPanel}
    (hp : p ∈ w.openedEvents) : p.windowId < w.nextWindowId := by
  have : p.windowId ∈ w.openedEvents.map FloatingPanel.windowId := List.mem_map_of_mem _ hp
  rw [hInv.wids_eq] at this
  exact List.mem_range.mp this

theorem opened_idNum_inj {w : World} (hInv : Inv w) {p q : FloatingPanel}
    (hp : p ∈ w.openedEvents) (hq : q ∈ w.openedEvents)
    (h : p.idNum = q.idNum) : p = q :=
  List.inj_on_of_nodup_map (hInv.ids_eq ▸ List.nodup_range _) hp hq h

theorem opened_wid_inj {w : World} (hInv : Inv w) {p q : FloatingPanel}
    (hp : p ∈ w.openedEvents) (hq : q ∈ w.openedEvents)
    (h : p.windowId = q.windowId) : p = q :=
  List.inj_on_of_nodup_map (hInv.wids_eq ▸ List.nodup_range _) hp hq h

theorem opened_id_inj {w : World} (hInv : Inv w) {p q : FloatingPanel}
    (hp : p ∈ w.openedEvents) (hq : q ∈ w.openedEvents)
    (h : p.id = q.id) : p = q :=
  opened_idNum_inj hInv hp hq (FloatingPanel.id_inj h)

theorem wid_surj {w : World} (hInv : Inv w) {wid : Nat}
    (h : wid < w.nextWindowId) : ∃ p ∈ w.openedEvents, p.windowId = wid := by
  have : wid ∈ w.openedEvents.map FloatingPanel.windowId := by
    rw [hInv.wids_eq]
    exact List.mem_range.mpr h
  obtain ⟨p, hp, hpw⟩ := List.mem_map.mp this
  exact ⟨p, hp, hpw⟩

theorem mem_mapDelete_key_ne {α : Type} {k : String} {l : List (String × α)}
    {e : String × α} (h : e ∈ mapDelete k l) : e.1 ≠ k := by
  induction l with
  | nil => simp [mapDelete] at h
  | cons e' rest ih =>
    obtain ⟨k₀, v₀⟩ := e'
    by_cases hk : k₀ = k
    · rw [mapDelete, if_pos hk] at h
      exact ih h
    · rw [mapDelete, if_neg hk] at h
      rcases List.mem_cons.mp h with h' | h'
      · subst h'; exact hk
      · exact ih h'

theorem nodup_append_singleton {α : Type} {l : List α} {a : α} :
    (l ++ [a]).Nodup ↔ l.Nodup ∧ a ∉ l := by
  simp [List.nodup_append]

theorem filter_key_eq_singleton {α : Type} [DecidableEq α] :
    ∀ {l : List (Nat × α)} {wid : Nat} {p : α},
      (l.map Prod.fst).Nodup → (wid, p) ∈ l →
      (∀ s ∈ l, s.1 = wid → s = (wid, p)) →
      l.filter (fun s => s.1 == wid) = [(wid, p)] := by
  intro l
  induction l with
  | nil => intro wid p _ hmem _; simp at hmem
  | cons e rest ih =>
    intro wid p hnd hmem huniq
    by_cases hk : e.1 = wid
    · have he : e = (wid, p) := huniq e (List.mem_cons_self _ _) hk
      have hpred : (e.1 == wid) = true := beq_iff_eq.mpr hk
      rw [List.filter_cons, if_pos hpred]
      have hkeys : wid ∉ rest.map Prod.fst := by
        rw [List.map_cons] at hnd
        exact hk ▸ (List.nodup_cons.mp hnd).1
      have hnil : rest.filter (fun s => s.1 == wid) = [] := by
        rw [List.filter_eq_nil_iff]
        intro s hs hpred'
        exact hkeys (List.mem_map.mpr ⟨s, hs, beq_iff_eq.mp hpred'⟩)
      rw [hnil, he]
    · have hpred : ¬(e.1 == wid) = true := fun hc => hk (beq_iff_eq.mp hc)
      rw [List.filter_cons, if_neg hpred]
      have hmem' : (wid, p) ∈ rest := by
        rcases List.mem_cons.mp hmem with he | h'
        · exact absurd (congrArg Prod.fst he.symm) hk
        · exact h'
      refine ih ?_ hmem' ?_
      · rw [List.map_cons] at hnd
        exact (List.nodup_cons.mp hnd).2
      · intro s hs h1
        exact huniq s (List.mem_cons_of_mem _ hs) h1

/-- In a world satisfying the invariant, the still-subscribed `onUnload`
listeners of the live window of panel `p` are exactly `p`'s own listener. -/
theorem subs_filter_eq {w : World} (hInv : Inv w) {p : FloatingPanel}
    (hp : p ∈ w.openedEvents) (hunfired : p.windowId ∉ w.unloadFired) :
    w.subs.filter (fun s => s.1 == p.windowId) = [(p.windowId, p)] := by
  have hmem : (p.windowId, p) ∈ w.subs := hInv.live_subs p hp hunfired
  have huniq : ∀ s ∈ w.subs, s.1 = p.windowId → s = (p.windowId, p) := by
    intro s hs h1
    obtain ⟨hso, hsk⟩ := hInv.subs_opened s hs
    have h2 : s.2 = p := opened_wid_inj hInv hso hp (by rw [← hsk, h1])
    obtain ⟨s1, s2⟩ := s
    simp only at h1 h2
    rw [h1, h2]
  exact filter_key_eq_singleton hInv.subs_nodup hmem huniq

theorem fireUnload_eq {w : World} (hInv : Inv w) {p : FloatingPanel}
    (hp : p ∈ w.openedEvents) (hunfired : p.windowId ∉ w.unloadFired) :
    fireUnload p.windowId w = closedWorld p w := by
  unfold fireUnload
  rw [if_pos ⟨opened_wid_lt hInv hp, hunfired⟩, subs_filter_eq hInv hp hunfired]
  rfl

theorem inv_closedWorld {w : World} (hInv : Inv w) {p : FloatingPanel}
    (hp : p ∈ w.openedEvents) (hunfired : p.windowId ∉ w.unloadFired) :
    Inv (closedWorld p w) where
  ids_eq := hInv.ids_eq
  wids_eq := hInv.wids_eq
  fired_lt := by
    intro x hx
    rcases List.mem_cons.mp hx with h | h
    · exact h ▸ opened_wid_lt hInv hp
    · exact hInv.fired_lt x h
  byId_key := fun e he => hInv.byId_key e (mem_mapDelete he)
  byView_key := fun e he => hInv.byView_key e (mem_mapDelete he)
  byId_nodup := (mapDelete_keys_sublist _ _).nodup hInv.byId_nodup
  byView_nodup := (mapDelete_keys_sublist _ _).nodup hInv.byView_nodup
  byId_opened := fun e he => hInv.byId_opened e (mem_mapDelete he)
  byView_opened := fun e he => hInv.byView_opened e (mem_mapDelete he)
  byId_live := by
    intro e he hmem
    have h1 : e ∈ w.floatingPanels := mem_mapDelete he
    rcases List.mem_cons.mp hmem with h | h
    · have he2 : e.2 = p := opened_wid_inj hInv (hInv.byId_opened e h1) hp h
      have hkey : e.1 = p.id := by rw [hInv.byId_key e h1, he2]
      exact mem_mapDelete_key_ne he hkey
    · exact hInv.byId_live e h1 h
  byView_live := by
    intro e he hmem
    have h1 : e ∈ w.floatingPanelsByViewId := mem_mapDelete he
    rcases List.mem_cons.mp hmem with h | h
    · have he2 : e.2 = p := opened_wid_inj hInv (hInv.byView_opened e h1) hp h
      have hkey : e.1 = p.viewId := by rw [hInv.byView_key e h1, he2]
      exact mem_mapDelete_key_ne he hkey
    · exact hInv.byView_live e h1 h
  live_byId := by
    intro q hq hqun
    have hqw : q.windowId ≠ p.windowId := fun hc => hqun (hc ▸ List.mem_cons_self _ _)
    have hqf : q.windowId ∉ w.unloadFired := fun hc => hqun (List.mem_cons_of_mem _ hc)
    have hqp : q ≠ p := fun hc => hqw (by rw [hc])
    have hid : q.id ≠ p.id := fun hc => hqp (opened_id_inj hInv hq hp hc)
    show mapGet q.id (mapDelete p.id w.floatingPanels) = some q
    rw [mapGet_delete_ne _ hid]
    exact hInv.live_byId q hq hqf
  live_byView := by
    intro q hq hqun
    have hqw : q.windowId ≠ p.windowId := fun hc => hqun (hc ▸ List.mem_cons_self _ _)
    have hqf : q.windowId ∉ w.unloadFired := fun hc => hqun (List.mem_cons_of_mem _ hc)
    have hview : q.viewId ≠ p.viewId := by
      intro hc
      have h1 := hInv.live_byView q hq hqf
      have h2 := hInv.live_byView p hp hunfired
      rw [hc, h2] at h1
      have : p = q := by injection h1
      exact hqw (by rw [this])
    show mapGet q.viewId (mapDelete p.viewId w.floatingPanelsByViewId) = some q
    rw [mapGet_delete_ne _ hview]
    exact hInv.live_byView q hq hqf
  subs_opened := hInv.subs_opened
  subs_nodup := hInv.subs_nodup
  live_subs := by
    intro q hq hqun
    exact hInv.live_subs q hq (fun hc => hqun (List.mem_cons_of_mem _ hc))
  closed_opened := by
    intro q hq
    rcases List.mem_append.mp hq with h | h
    · obtain ⟨h1, h2⟩ := hInv.closed_opened q h
      exact ⟨h1, List.mem_cons_of_mem _ h2⟩
    · have hq' : q = p := by simpa using h
      subst hq'
      exact ⟨hp, List.mem_cons_self _ _⟩
  fired_closed := by
    intro q hq hqf
    rcases List.mem_cons.mp hqf with h | h
    · have hq' : q = p := opened_wid_inj hInv hq hp h
      exact List.mem_append_right _ (by simp [hq'])
    · exact List.mem_append_left _ (hInv.fired_closed q hq h)
  closed_nodup := by
    show (w.closedEvents ++ [p]).Nodup
    rw [nodup_append_singleton]
    refine ⟨hInv.closed_nodup, fun hc => ?_⟩
    exact hunfired (hInv.closed_opened p hc).2

theorem inv_subsFilter {w : World} (hInv : Inv w) {p : FloatingPanel}
    (hfired : p.windowId ∈ w.unloadFired) :
    Inv { w with subs := w.subs.filter (fun s => s.2 != p) } where
  ids_eq := hInv.ids_eq
  wids_eq := hInv.wids_eq
  fired_lt := hInv.fired_lt
  byId_key := hInv.byId_key
  byView_key := hInv.byView_key
  byId_nodup := hInv.byId_nodup
  byView_nodup := hInv.byView_nodup
  byId_opened := hInv.byId_opened
  byView_opened := hInv.byView_opened
  byId_live := hInv.byId_live
  byView_live := hInv.byView_live
  live_byId := hInv.live_byId
  live_byView := hInv.live_byView
  subs_opened := fun s hs => hInv.subs_opened s (List.mem_of_mem_filter hs)
  subs_nodup := ((List.filter_sublist _).map Prod.fst).nodup hInv.subs_nodup
  live_subs := by
    intro q hq hqun
    have hqp : q ≠ p := fun hc => hqun (by rw [hc]; exact hfired)
    refine List.mem_filter.mpr ⟨hInv.live_subs q hq hqun, ?_⟩
    simpa using hqp
  closed_opened := hInv.closed_opened
  fired_closed := hInv.fired_closed
  closed_nodup := hInv.closed_nodup

theorem panelClose_eq {w : World} (hInv : Inv w) {p : FloatingPanel}
    (hp : p ∈ w.openedEvents) (hunfired : p.windowId ∉ w.unloadFired) :
    panelClose p w =
      { closedWorld p w with subs := w.subs.filter (fun s => s.2 != p) } := by
  unfold panelClose
  rw [fireUnload_eq hInv hp hunfired]
  rfl

theorem inv_panelClose {w : World} (hInv : Inv w) {p : FloatingPanel}
    (hp : p ∈ w.openedEvents) (hunfired : p.windowId ∉ w.unloadFired) :
    Inv (panelClose p w) := by
  rw [panelClose_eq hInv hp hunfired]
  exact inv_subsFilter (inv_closedWorld hInv hp hunfired) (List.mem_cons_self _ _)

theorem inv_focusCalls {w : World} (hInv : Inv w) (f : List Nat) :
    Inv { w with focusCalls := f } where
  ids_eq := hInv.ids_eq
  wids_eq := hInv.wids_eq
  fired_lt := hInv.fired_lt
  byId_key := hInv.byId_key
  byView_key := hInv.byView_key
  byId_nodup := hInv.byId_nodup
  byView_nodup := hInv.byView_nodup
  byId_opened := hInv.byId_opened
  byView_opened := hInv.byView_opened
  byId_live := hInv.byId_live
  byView_live := hInv.byView_live
  live_byId := hInv.live_byId
  live_byView := hInv.live_byView
  subs_opened := hInv.subs_opened
  subs_nodup := hInv.subs_nodup
  live_subs := hInv.live_subs
  closed_opened := hInv.closed_opened
  fired_closed := hInv.fired_closed
  closed_nodup := hInv.closed_nodup

theorem inv_moveCalls {w : World} (hInv : Inv w)
    (m : List (ViewDescriptor × ViewContainerLoc × String)) :
    Inv { w with moveCalls := m } where
  ids_eq := hInv.ids_eq
  wids_eq := hInv.wids_eq
  fired_lt := hInv.fired_lt
  byId_key := hInv.byId_key
  byView_key := hInv.byView_key
  byId_nodup := hInv.byId_nodup
  byView_nodup := hInv.byView_nodup
  byId_opened := hInv.byId_opened
  byView_opened := hInv.byView_opened
  byId_live := hInv.byId_live
  byView_live := hInv.byView_live
  live_byId := hInv.live_byId
  live_byView := hInv.live_byView
  subs_opened := hInv.subs_opened
  subs_nodup := hInv.subs_nodup
  live_subs := hInv.live_subs
  closed_opened := hInv.closed_opened
  fired_closed := hInv.fired_closed
  closed_nodup := hInv.closed_nodup

/-- The create branch of `openFloatingPanel`, written out as one state. -/
theorem openFloatingPanel_create_eq {w : World} {opts : FloatingPanelOpenOptions}
    (hget : mapGet opts.viewId w.floatingPanelsByViewId = none) :
    openFloatingPanel opts w =
      (⟨w.idCounter, opts.viewId, w.nextWindowId⟩,
        { w with
          idCounter := w.idCounter + 1
          nextWindowId := w.nextWindowId + 1
          openCalls := w.openCalls ++ [opts.bounds.getD defaultServiceBounds]
          subs := w.subs ++ [(w.nextWindowId, ⟨w.idCounter, opts.viewId, w.nextWindowId⟩)]
          floatingPanels :=
            mapSet (mkPanelId w.idCounter) ⟨w.idCounter, opts.viewId, w.nextWindowId⟩
              w.floatingPanels
          floatingPanelsByViewId :=
            mapSet opts.viewId ⟨w.idCounter, opts.viewId, w.nextWindowId⟩
              w.floatingPanelsByViewId
          openedEvents :=
            w.openedEvents ++ [⟨w.idCounter, opts.viewId, w.nextWindowId⟩] }) := by
  unfold openFloatingPanel providerOpen openResume
  rw [hget]
  rfl

/-- The key `floating-panel-${idCounter}` of a newly created panel is fresh. -/
theorem freshId_not_mem {w : World} (hInv : Inv w) :
    mkPanelId w.idCounter ∉ w.floatingPanels.map Prod.fst := by
  intro hmem
  obtain ⟨e, he, hek⟩ := List.mem_map.mp hmem
  have h1 := hInv.byId_key e he
  have h3 : e.2.idNum < w.idCounter := opened_idNum_lt hInv (hInv.byId_opened e he)
  have h4 : mkPanelId e.2.idNum = mkPanelId w.idCounter := by
    rw [← hek, h1]
    rfl
  have := mkPanelId_injective h4
  omega

/-- A freshly allocated window id is not subscribed yet. -/
theorem freshWid_not_mem {w : World} (hInv : Inv w) :
    w.nextWindowId ∉ w.subs.map Prod.fst := by
  intro hmem
  obtain ⟨s, hs, hsk⟩ := List.mem_map.mp hmem
  obtain ⟨hso, hsw⟩ := hInv.subs_opened s hs
  have := opened_wid_lt hInv hso
  omega

/-- A freshly allocated window has not fired `unload`. -/
theorem freshWid_not_fired {w : World} (hInv : Inv w) :
    w.nextWindowId ∉ w.unloadFired := by
  intro hmem
  have := hInv.fired_lt _ hmem
  omega

theorem inv_openFloatingPanel {w : World} (hInv : Inv w)
    (opts : FloatingPanelOpenOptions) : Inv (openFloatingPanel opts w).2 := by
  cases hget : mapGet opts.viewId w.floatingPanelsByViewId with
  | some p =>
      have heq : openFloatingPanel opts w = (p, bringToFront p w) := by
        unfold openFloatingPanel
        rw [hget]
      rw [heq]
      exact inv_focusCalls hInv _
  | none =>
      rw [openFloatingPanel_create_eq hget]
      have hfreshId := freshId_not_mem hInv
      have hfreshView : opts.viewId ∉ w.floatingPanelsByViewId.map Prod.fst :=
        (mapGet_eq_none_iff _ _).mp hget
      set p0 : FloatingPanel := ⟨w.idCounter, opts.viewId, w.nextWindowId⟩ with hp0
      have hid0 : p0.id = mkPanelId w.idCounter := rfl
      rw [mapSet_of_not_mem _ hfreshId, mapSet_of_not_mem _ hfreshView]
      constructor
      case ids_eq =>
        show (w.openedEvents ++ [p0]).map FloatingPanel.idNum = List.range (w.idCounter + 1)
        rw [List.map_append, hInv.ids_eq, List.range_succ]
        rfl
      case wids_eq =>
        show (w.openedEvents ++ [p0]).map FloatingPanel.windowId =
          List.range (w.nextWindowId + 1)
        rw [List.map_append, hInv.wids_eq, List.range_succ]
        rfl
      case fired_lt =>
        intro x hx
        exact Nat.lt_succ_of_lt (hInv.fired_lt x hx)
      case byId_key =>
        intro e he
        rcases List.mem_append.mp he with h | h
        · exact hInv.byId_key e h
        · have : e = (mkPanelId w.idCounter, p0) := by simpa using h
          rw [this]
          rfl
      case byView_key =>
        intro e he
        rcases List.mem_append.mp he with h | h
        · exact hInv.byView_key e h
        · have : e = (opts.viewId, p0) := by simpa using h
          rw [this]
      case byId_nodup =>
        show ((w.floatingPanels ++ [(mkPanelId w.idCounter, p0)]).map Prod.fst).Nodup
        rw [List.map_append]
        exact nodup_append_singleton.mpr ⟨hInv.byId_nodup, hfreshId⟩
      case byView_nodup =>
        show ((w.floatingPanelsByViewId ++ [(opts.viewId, p0)]).map Prod.fst).Nodup
        rw [List.map_append]
        exact nodup_append_singleton.mpr ⟨hInv.byView_nodup, hfreshView⟩
      case byId_opened =>
        intro e he
        rcases List.mem_append.mp he with h | h
        · exact List.mem_append_left _ (hInv.byId_opened e h)
        · have : e = (mkPanelId w.idCounter, p0) := by simpa using h
          rw [this]
          exact List.mem_append_right _ (by simp)
      case byView_opened =>
        intro e he
        rcases List.mem_append.mp he with h | h
        · exact List.mem_append_left _ (hInv.byView_opened e h)
        · have : e = (opts.viewId, p0) := by simpa using h
          rw [this]
          exact List.mem_append_right _ (by simp)
      case byId_live =>
        intro e he
        rcases List.mem_append.mp he with h | h
        · exact hInv.byId_live e h
        · have : e = (mkPanelId w.idCounter, p0) := by simpa using h
          rw [this]
          exact freshWid_not_fired hInv
      case byView_live =>
        intro e he
        rcases List.mem_append.mp he with h | h
        · exact hInv.byView_live e h
        · have : e = (opts.viewId, p0) := by simpa using h
          rw [this]
          exact freshWid_not_fired hInv
      case live_byId =>
        intro q hq hqun
        rcases List.mem_append.mp hq with h | h
        · exact mapGet_append_of_some _ (hInv.live_byId q h hqun)
        · have hq' : q = p0 := by simpa using h
          subst hq'
          show mapGet (mkPanelId w.idCounter)
            (w.floatingPanels ++ [(mkPanelId w.idCounter, p0)]) = some p0
          rw [mapGet_append_of_none _ ((mapGet_eq_none_iff _ _).mpr hfreshId)]
          simp [mapGet]
      case live_byView =>
        intro q hq hqun
        rcases List.mem_append.mp hq with h | h
        · exact mapGet_append_of_some _ (hInv.live_byView q h hqun)
        · have hq' : q = p0 := by simpa using h
          subst hq'
          show mapGet opts.viewId
            (w.floatingPanelsByViewId ++ [(opts.viewId, p0)]) = some p0
          rw [mapGet_append_of_none _ hget]
          simp [mapGet]
      case subs_opened =>
        intro s hs
        rcases List.mem_append.mp hs with h | h
        · obtain ⟨h1, h2⟩ := hInv.subs_opened s h
          exact ⟨List.mem_append_left _ h1, h2⟩
        · have : s = (w.nextWindowId, p0) := by simpa using h
          rw [this]
          exact ⟨List.mem_append_right _ (by simp), rfl⟩
      case subs_nodup =>
        show ((w.subs ++ [(w.nextWindowId, p0)]).map Prod.fst).Nodup
        rw [List.map_append]
        exact nodup_append_singleton.mpr ⟨hInv.subs_nodup, freshWid_not_mem hInv⟩
      case live_subs =>
        intro q hq hqun
        rcases List.mem_append.mp hq with h | h
        · exact List.mem_append_left _ (hInv.live_subs q h hqun)
        · have hq' : q = p0 := by simpa using h
          subst hq'
          exact List.mem_append_right _ (by simp)
      case closed_opened =>
        intro q hq
        obtain ⟨h1, h2⟩ := hInv.closed_opened q hq
        exact ⟨List.mem_append_left _ h1, h2⟩
      case fired_closed =>
        intro q hq hqf
        rcases List.mem_append.mp hq with h | h
        · exact hInv.fired_closed q h hqf
        · have hq' : q = p0 := by simpa using h
          subst hq'
          exact absurd hqf (freshWid_not_fired hInv)
      case closed_nodup => exact hInv.closed_nodup

theorem inv_openFloatingPanelFail {w : World} (hInv : Inv w)
    (opts : FloatingPanelOpenOptions) : Inv (openFloatingPanelFail opts w).2 := by
  unfold openFloatingPanelFail
  cases hget : mapGet opts.viewId w.floatingPanelsByViewId with
  | some p => exact inv_focusCalls hInv _
  | none => exact hInv

theorem inv_closeFloatingPanel {w : World} (hInv : Inv w) (pid : String) :
    Inv (closeFloatingPanel pid w) := by
  unfold closeFloatingPanel
  cases hget : mapGet pid w.floatingPanels with
  | none => exact hInv
  | some p =>
      have hmem := mapGet_mem hget
      exact inv_panelClose hInv (hInv.byId_opened _ hmem) (hInv.byId_live _ hmem)

theorem dockFloatingPanel_some_eq {w : World} {pid : String} {p : FloatingPanel}
    (loc : ViewContainerLoc) (hget : mapGet pid w.floatingPanels = some p) :
    dockFloatingPanel pid loc w = panelClose p (dockRelocate p loc w) := by
  unfold dockFloatingPanel dockRelocate
  rw [hget]

theorem dockRelocate_moveCalls_only (p : FloatingPanel) (loc : ViewContainerLoc)
    (w : World) : ∃ m, dockRelocate p loc w = { w with moveCalls := m } := by
  unfold dockRelocate
  cases w.registry p.viewId with
  | none => exact ⟨w.moveCalls, rfl⟩
  | some d =>
      show ∃ m,
        (if d.canMoveView then
            { w with moveCalls := w.moveCalls ++ [(d, loc, "dock")] }
          else w) = { w with moveCalls := m }
      by_cases hmv : d.canMoveView
      · rw [if_pos hmv]
        exact ⟨_, rfl⟩
      · rw [if_neg hmv]
        exact ⟨w.moveCalls, rfl⟩

theorem inv_dockFloatingPanel {w : World} (hInv : Inv w) (pid : String)
    (loc : ViewContainerLoc) : Inv (dockFloatingPanel pid loc w) := by
  cases hget : mapGet pid w.floatingPanels with
  | none =>
      unfold dockFloatingPanel
      rw [hget]
      exact hInv
  | some p =>
      have hmem := mapGet_mem hget
      have hp := hInv.byId_opened _ hmem
      have hunf := hInv.byId_live _ hmem
      obtain ⟨m, hm⟩ := dockRelocate_moveCalls_only p loc w
      rw [dockFloatingPanel_some_eq loc hget, hm]
      exact inv_panelClose (inv_moveCalls hInv m) hp hunf

theorem inv_fireUnload {w : World} (hInv : Inv w) (wid : Nat) :
    Inv (fireUnload wid w) := by
  by_cases hc : wid < w.nextWindowId ∧ wid ∉ w.unloadFired
  · obtain ⟨p, hp, hpw⟩ := wid_surj hInv hc.1
    have hunf : p.windowId ∉ w.unloadFired := by rw [hpw]; exact hc.2
    rw [← hpw, fireUnload_eq hInv hp hunf]
    exact inv_closedWorld hInv hp hunf
  · unfold fireUnload
    rw [if_neg hc]
    exact hInv

theorem inv_step {w : World} (hInv : Inv w) (op : Op) : Inv (step w op) := by
  cases op with
  | openOk opts => exact inv_openFloatingPanel hInv opts
  | openFail opts => exact inv_openFloatingPanelFail hInv opts
  | close pid => exact inv_closeFloatingPanel hInv pid
  | dock pid loc => exact inv_dockFloatingPanel hInv pid loc
  | extUnload wid => exact inv_fireUnload hInv wid

theorem inv_initWorld (reg : String → Option ViewDescriptor) :
    Inv (initWorld reg) := by
  constructor <;> simp [initWorld]

/-- Every state reachable by a sequence of sequential operations satisfies the
inductive invariant. -/
theorem invariant_run (reg : String → Option ViewDescriptor) (ops : List Op) :
    Inv (run reg ops) := by
  suffices h : ∀ w, Inv w → Inv (ops.foldl step w) from h _ (inv_initWorld reg)
  induction ops with
  | nil => intro w h; exact h
  | cons op rest ih => intro w h; exact ih _ (inv_step h op)

theorem mapsConsistent_of_inv {w : World} (hInv : Inv w) : MapsConsistent w := by
  refine ⟨?_, ?_, ?_, ?_⟩
  · intro e he
    exact hInv.live_byId e.2 (hInv.byView_opened e he) (hInv.byView_live e he)
  · intro e he
    exact hInv.live_byView e.2 (hInv.byId_opened e he) (hInv.byId_live e he)
  · intro e₁ h₁ e₂ h₂ hv
    have g₁ := hInv.live_byView e₁.2 (hInv.byId_opened e₁ h₁) (hInv.byId_live e₁ h₁)
    have g₂ := hInv.live_byView e₂.2 (hInv.byId_opened e₂ h₂) (hInv.byId_live e₂ h₂)
    rw [hv, g₂] at g₁
    have h22 : e₂.2 = e₁.2 := by injection g₁
    refine nodup_keys_entry_ext hInv.byId_nodup h₁ h₂ ?_
    rw [hInv.byId_key e₁ h₁, hInv.byId_key e₂ h₂, h22]
  · intro e₁ h₁ e₂ h₂ hv
    refine nodup_keys_entry_ext hInv.byView_nodup h₁ h₂ ?_
    rw [hInv.byView_key e₁ h₁, hInv.byView_key e₂ h₂, hv]

/-- The precise `moveViewToLocation` effect of the dock path. -/
theorem dockRelocate_moveCalls (p : FloatingPanel) (loc : ViewContainerLoc)
    (w : World) :
    (dockRelocate p loc w).moveCalls =
      w.moveCalls ++
        (match w.registry p.viewId with
          | some d => if d.canMoveView then [(d, loc, "dock")] else []
          | none => []) := by
  unfold dockRelocate
  cases w.registry p.viewId with
  | none => simp
  | some d =>
      show (if d.canMoveView then
          { w with moveCalls := w.moveCalls ++ [(d, loc, "dock")] }
        else w).moveCalls =
        w.moveCalls ++ (if d.canMoveView then [(d, loc, "dock")] else [])
      by_cases hmv : d.canMoveView
      · rw [if_pos hmv, if_pos hmv]
      · rw [if_neg hmv, if_neg hmv]
        simp

/-! ### The claims -/

/-- C1: the claim that at most one panel per view id can exist after
overlapping `openFloatingPanel` calls settle fails on the code.  Both
overlapping calls for `"explorer"` pass the "already exists" check (first two
conjuncts: the check reads `none` both before the first call suspends and
after it has suspended), so both reach the create-new branch; after both
settle, `panelsById` holds two panels with `viewId = "explorer"` and the
opened event fired twice. -/
theorem openFloatingPanel_race_duplicate :
    mapGet "explorer" (initWorld testReg).floatingPanelsByViewId = none ∧
    mapGet "explorer"
      (providerOpen defaultServiceBounds (initWorld testReg)).2.floatingPanelsByViewId =
        none ∧
    raceWorld.floatingPanels.map (fun e => e.2.viewId) = ["explorer", "explorer"] ∧
    raceWorld.openedEvents.length = 2 := by
  refine ⟨rfl, rfl, ?_, rfl⟩
  rfl

/-- C2: opening a view that is already floating returns the existing panel
itself, changes neither `panelsById` (so `getAllFloatingPanels` is unchanged)
nor the `onDidOpenFloatingPanel` log, and focuses the panel's window. -/
theorem openFloatingPanel_idempotent (w : World) (opts : FloatingPanelOpenOptions)
    (p : FloatingPanel)
    (hget : mapGet opts.viewId w.floatingPanelsByViewId = some p) :
    (openFloatingPanel opts w).1 = p ∧
    (openFloatingPanel opts w).2.floatingPanels = w.floatingPanels ∧
    getAllFloatingPanels (openFloatingPanel opts w).2 = getAllFloatingPanels w ∧
    (openFloatingPanel opts w).2.openedEvents = w.openedEvents ∧
    (openFloatingPanel opts w).2.focusCalls = w.focusCalls ++ [p.windowId] := by
  have heq : openFloatingPanel opts w = (p, bringToFront p w) := by
    unfold openFloatingPanel
    rw [hget]
  rw [heq]
  exact ⟨rfl, rfl, rfl, rfl, rfl⟩

/-- Witness for C2 at a concrete state with `"explorer"` already floating. -/
theorem openFloatingPanel_idempotent_witness :
    mapGet "explorer" oneOpenWorld.floatingPanelsByViewId = some panel0 ∧
    ((openFloatingPanel { viewId := "explorer" } oneOpenWorld).1 = panel0 ∧
      (openFloatingPanel { viewId := "explorer" } oneOpenWorld).2.floatingPanels =
        oneOpenWorld.floatingPanels ∧
      getAllFloatingPanels (openFloatingPanel { viewId := "explorer" } oneOpenWorld).2 =
        getAllFloatingPanels oneOpenWorld ∧
      (openFloatingPanel { viewId := "explorer" } oneOpenWorld).2.openedEvents =
        oneOpenWorld.openedEvents ∧
      (openFloatingPanel { viewId := "explorer" } oneOpenWorld).2.focusCalls =
        oneOpenWorld.focusCalls ++ [panel0.windowId]) :=
  ⟨by decide, openFloatingPanel_idempotent oneOpenWorld { viewId := "explorer" }
    panel0 (by decide)⟩

/-- C3: over any sequence of sequential operations, `onDidCloseFloatingPanel`
fires for a panel exactly once if the panel was created and its window's
`unload` has fired (all three closure triggers — `close()`, dock, external
unload — fire the window's `unload`), and zero times otherwise; moreover both
maps only ever hold panels whose window has not unloaded, so a closed panel is
in neither map. -/
theorem onDidClose_exactly_once (reg : String → Option ViewDescriptor)
    (ops : List Op) (p : FloatingPanel) :
    ((run reg ops).closedEvents.count p =
      if p ∈ (run reg ops).openedEvents ∧ p.windowId ∈ (run reg ops).unloadFired
      then 1 else 0) ∧
    (∀ e ∈ (run reg ops).floatingPanels, e.2.windowId ∉ (run reg ops).unloadFired) ∧
    (∀ e ∈ (run reg ops).floatingPanelsByViewId,
      e.2.windowId ∉ (run reg ops).unloadFired) := by
  have hInv := invariant_run reg ops
  refine ⟨?_, hInv.byId_live, hInv.byView_live⟩
  by_cases hcond : p ∈ (run reg ops).openedEvents ∧
      p.windowId ∈ (run reg ops).unloadFired
  · rw [if_pos hcond]
    exact List.count_eq_one_of_mem hInv.closed_nodup
      (hInv.fired_closed p hcond.1 hcond.2)
  · rw [if_neg hcond]
    refine List.count_eq_zero.mpr fun hc => ?_
    exact hcond ⟨(hInv.closed_opened p hc).1, (hInv.closed_opened p hc).2⟩

/-- Witness for C3: after opening and closing `"explorer"`, the close event
for its panel fired exactly once, and the maps hold no unloaded panel. -/
theorem onDidClose_exactly_once_witness :
    ((run testReg [Op.openOk { viewId := "explorer" }, Op.close "floating-panel-0"]).closedEvents.count panel0 =
      if panel0 ∈ (run testReg [Op.openOk { viewId := "explorer" }, Op.close "floating-panel-0"]).openedEvents ∧
          panel0.windowId ∈ (run testReg [Op.openOk { viewId := "explorer" }, Op.close "floating-panel-0"]).unloadFired
      then 1 else 0) ∧
    (∀ e ∈ (run testReg [Op.openOk { viewId := "explorer" }, Op.close "floating-panel-0"]).floatingPanels,
      e.2.windowId ∉ (run testReg [Op.openOk { viewId := "explorer" }, Op.close "floating-panel-0"]).unloadFired) ∧
    (∀ e ∈ (run testReg [Op.openOk { viewId := "explorer" }, Op.close "floating-panel-0"]).floatingPanelsByViewId,
      e.2.windowId ∉ (run testReg [Op.openOk { viewId := "explorer" }, Op.close "floating-panel-0"]).unloadFired) :=
  onDidClose_exactly_once testReg
    [Op.openOk { viewId := "explorer" }, Op.close "floating-panel-0"] panel0

/-- C4: docking a known panel calls the registry's `moveViewToLocation` with
`(descriptor, location, 'dock')` exactly when the registry returns a
descriptor whose `canMoveView` is true (and calls nothing otherwise), and in
every case the panel is closed afterwards: `getFloatingPanel` no longer finds
it and `isViewFloating` is false for its view. -/
theorem dockFloatingPanel_spec (w : World) (pid : String) (p : FloatingPanel)
    (loc : ViewContainerLoc) (hInv : Inv w)
    (hget : mapGet pid w.floatingPanels = some p) :
    (dockFloatingPanel pid loc w).moveCalls =
      w.moveCalls ++
        (match w.registry p.viewId with
          | some d => if d.canMoveView then [(d, loc, "dock")] else []
          | none => []) ∧
    getFloatingPanel pid (dockFloatingPanel pid loc w) = none ∧
    isViewFloating p.viewId (dockFloatingPanel pid loc w) = false := by
  have hmem := mapGet_mem hget
  have hp : p ∈ w.openedEvents := hInv.byId_opened _ hmem
  have hunf : p.windowId ∉ w.unloadFired := hInv.byId_live _ hmem
  have hpid : pid = p.id := hInv.byId_key _ hmem
  obtain ⟨m, hm⟩ := dockRelocate_moveCalls_only p loc w
  have hInv1 : Inv (dockRelocate p loc w) := by
    rw [hm]
    exact inv_moveCalls hInv m
  have hp1 : p ∈ (dockRelocate p loc w).openedEvents := by
    rw [hm]
    exact hp
  have hunf1 : p.windowId ∉ (dockRelocate p loc w).unloadFired := by
    rw [hm]
    exact hunf
  rw [dockFloatingPanel_some_eq loc hget, panelClose_eq hInv1 hp1 hunf1]
  refine ⟨?_, ?_, ?_⟩
  · show (dockRelocate p loc w).moveCalls = _
    exact dockRelocate_moveCalls p loc w
  · show mapGet pid (mapDelete p.id (dockRelocate p loc w).floatingPanels) = none
    rw [hpid]
    exact mapGet_delete_self _ _
  · show (mapGet p.viewId
      (mapDelete p.viewId (dockRelocate p loc w).floatingPanelsByViewId)).isSome = false
    rw [mapGet_delete_self]
    rfl

/-- Witness for C4: docking the one open `"explorer"` panel to the sidebar
relocates it (its descriptor is `canMoveView`) and terminates floating. -/
theorem dockFloatingPanel_spec_witness :
    Inv oneOpenWorld ∧
    mapGet "floating-panel-0" oneOpenWorld.floatingPanels = some panel0 ∧
    ((dockFloatingPanel "floating-panel-0" ViewContainerLoc.Sidebar oneOpenWorld).moveCalls =
      oneOpenWorld.moveCalls ++
        (match oneOpenWorld.registry panel0.viewId with
          | some d => if d.canMoveView then [(d, ViewContainerLoc.Sidebar, "dock")] else []
          | none => []) ∧
    getFloatingPanel "floating-panel-0"
      (dockFloatingPanel "floating-panel-0" ViewContainerLoc.Sidebar oneOpenWorld) = none ∧
    isViewFloating panel0.viewId
      (dockFloatingPanel "floating-panel-0" ViewContainerLoc.Sidebar oneOpenWorld) = false) :=
  ⟨invariant_run testReg [Op.openOk { viewId := "explorer" }], by decide,
    dockFloatingPanel_spec oneOpenWorld "floating-panel-0" panel0
      ViewContainerLoc.Sidebar
      (invariant_run testReg [Op.openOk { viewId := "explorer" }]) (by decide)⟩

/-- C5: when the Window Provider's `open` rejects, the error propagates to the
caller of `openFloatingPanel` and the manager state is exactly unchanged — in
particular no map entry is created and `onDidOpenFloatingPanel` does not
fire. -/
theorem openFloatingPanel_failure (w : World) (opts : FloatingPanelOpenOptions)
    (hget : mapGet opts.viewId w.floatingPanelsByViewId = none) :
    (openFloatingPanelFail opts w).1 =
      Except.error "auxiliary window open failed" ∧
    (openFloatingPanelFail opts w).2 = w := by
  have heq : openFloatingPanelFail opts w =
      (.error "auxiliary window open failed", w) := by
    unfold openFloatingPanelFail
    rw [hget]
  rw [heq]
  exact ⟨rfl, rfl⟩

/-- Witness for C5 on the fresh manager. -/
theorem openFloatingPanel_failure_witness :
    mapGet "explorer" (initWorld testReg).floatingPanelsByViewId = none ∧
    ((openFloatingPanelFail { viewId := "explorer" } (initWorld testReg)).1 =
      Except.error "auxiliary window open failed" ∧
    (openFloatingPanelFail { viewId := "explorer" } (initWorld testReg)).2 =
      initWorld testReg) :=
  ⟨rfl, openFloatingPanel_failure (initWorld testReg) { viewId := "explorer" } rfl⟩

/-- C6: after every manager operation executed sequentially (on any reachable
state, all of which satisfy the invariant) — including the cleanup run by a
window's external `unload` — the two maps are consistent: panels reachable
through either map appear in the other under their own key, and no two
entries of either map hold panels with the same `viewId`. -/
theorem maps_consistent_after_step (reg : String → Option ViewDescriptor)
    (ops : List Op) (op : Op) : MapsConsistent (step (run reg ops) op) :=
  mapsConsistent_of_inv (inv_step (invariant_run reg ops) op)

/-- Witness for C6 after an open operation. -/
theorem maps_consistent_after_step_witness :
    MapsConsistent (step (run testReg []) (Op.openOk { viewId := "explorer" })) :=
  maps_consistent_after_step testReg [] (Op.openOk { viewId := "explorer" })

/-- C7: the claim that the Float command resolves the focused view and floats
it fails on the code.  Invoked without an explicit view id while `"explorer"`
(a registered view) has focus, `FloatViewAction.run` looks the focused view up
and then returns without doing anything: the state is untouched, the view is
not floating, and no panel was ever created. -/
theorem floatView_no_focus_resolution :
    floatViewRun none (some "explorer") (initWorld testReg) = initWorld testReg ∧
    isViewFloating "explorer"
      (floatViewRun none (some "explorer") (initWorld testReg)) = false ∧
    (floatViewRun none (some "explorer") (initWorld testReg)).openedEvents = [] :=
  ⟨rfl, rfl, rfl⟩

/-- C8: `closeFloatingPanel` and `dockFloatingPanel` with an unknown panel id
return the state entirely unchanged — no error, no map change, no event, no
registry call. -/
theorem unknown_panel_id_noop (w : World) (pid : String) (loc : ViewContainerLoc)
    (hget : mapGet pid w.floatingPanels = none) :
    closeFloatingPanel pid w = w ∧ dockFloatingPanel pid loc w = w := by
  constructor
  · unfold closeFloatingPanel
    rw [hget]
  · unfold dockFloatingPanel
    rw [hget]

/-- Witness for C8 on a state that has a panel, with a stale id. -/
theorem unknown_panel_id_noop_witness :
    mapGet "floating-panel-7" oneOpenWorld.floatingPanels = none ∧
    (closeFloatingPanel "floating-panel-7" oneOpenWorld = oneOpenWorld ∧
      dockFloatingPanel "floating-panel-7" ViewContainerLoc.Panel oneOpenWorld =
        oneOpenWorld) :=
  ⟨by decide, unknown_panel_id_noop oneOpenWorld "floating-panel-7"
    ViewContainerLoc.Panel (by decide)⟩

/-- C9: panel ids come from a monotonically increasing counter: over any run,
the id numbers of the panels created (in creation order) are exactly
`0, 1, 2, …`, and the id strings of all panels ever created are pairwise
distinct — an id is never reused, even after its panel is closed. -/
theorem panel_ids_never_reused (reg : String → Option ViewDescriptor)
    (ops : List Op) :
    (run reg ops).openedEvents.map FloatingPanel.idNum =
      List.range (run reg ops).idCounter ∧
    List.Pairwise (fun a b => a ≠ b)
      ((run reg ops).openedEvents.map FloatingPanel.id) := by
  have hInv := invariant_run reg ops
  refine ⟨hInv.ids_eq, ?_⟩
  have h1 : ((run reg ops).openedEvents.map FloatingPanel.idNum).Nodup :=
    hInv.ids_eq ▸ List.nodup_range _
  have h2 : ((run reg ops).openedEvents.map FloatingPanel.idNum).map mkPanelId =
      (run reg ops).openedEvents.map FloatingPanel.id := by
    rw [List.map_map]
    rfl
  have := h1.map mkPanelId_injective
  rw [h2] at this
  exact this

/-- Witness for C9 over a run that creates, closes, and re-creates. -/
theorem panel_ids_never_reused_witness :
    (run testReg [Op.openOk { viewId := "explorer" }, Op.close "floating-panel-0",
        Op.openOk { viewId := "explorer" }]).openedEvents.map FloatingPanel.idNum =
      List.range (run testReg [Op.openOk { viewId := "explorer" },
        Op.close "floating-panel-0", Op.openOk { viewId := "explorer" }]).idCounter ∧
    List.Pairwise (fun a b => a ≠ b)
      ((run testReg [Op.openOk { viewId := "explorer" }, Op.close "floating-panel-0",
        Op.openOk { viewId := "explorer" }]).openedEvents.map FloatingPanel.id) :=
  panel_ids_never_reused testReg [Op.openOk { viewId := "explorer" },
    Op.close "floating-panel-0", Op.openOk { viewId := "explorer" }]

/-- C10: when `openFloatingPanel` is called without bounds it asks the Window
Provider for `{ width := 400, height := 300 }` (the service default), while
the Float command always passes `{ width := 500, height := 400 }` explicitly
for the view it floats. -/
theorem openFloatingPanel_default_bounds (w : World)
    (opts : FloatingPanelOpenOptions) (hb : opts.bounds = none)
    (hget : mapGet opts.viewId w.floatingPanelsByViewId = none)
    (w2 : World) (v : String) (d : ViewDescriptor) (focused : Option String)
    (hreg : w2.registry v = some d)
    (hget2 : mapGet v w2.floatingPanelsByViewId = none) :
    (openFloatingPanel opts w).2.openCalls = w.openCalls ++ [⟨400, 300⟩] ∧
    (floatViewRun (some v) focused w2).openCalls = w2.openCalls ++ [⟨500, 400⟩] := by
  constructor
  · rw [openFloatingPanel_create_eq hget]
    show w.openCalls ++ [opts.bounds.getD defaultServiceBounds] =
      w.openCalls ++ [⟨400, 300⟩]
    rw [hb]
    rfl
  · have hflt : isViewFloating v w2 = false := by
      unfold isViewFloating
      rw [hget2]
      rfl
    have heq : floatViewRun (some v) focused w2 =
        (openFloatingPanel
          { viewId := v, title := some d.name, bounds := some ⟨500, 400⟩ } w2).2 := by
      unfold floatViewRun
      show (match w2.registry v with
        | none => w2
        | some d =>
            if isViewFloating v w2 then
              match getFloatingPanelByViewId v w2 with
              | some p => bringToFront p w2
              | none => w2
            else
              (openFloatingPanel
                { viewId := v, title := some d.name, bounds := some ⟨500, 400⟩ } w2).2) =
        (openFloatingPanel
          { viewId := v, title := some d.name, bounds := some ⟨500, 400⟩ } w2).2
      rw [hreg]
      show (if isViewFloating v w2 then _ else _) = _
      rw [hflt]
      simp
    rw [heq, openFloatingPanel_create_eq hget2]
    show w2.openCalls ++
        [(some (⟨500, 400⟩ : Dimension)).getD defaultServiceBounds] =
      w2.openCalls ++ [⟨500, 400⟩]
    rfl

/-- Witness for C10 on the fresh manager. -/
theorem openFloatingPanel_default_bounds_witness :
    ({ viewId := "explorer" } : FloatingPanelOpenOptions).bounds = none ∧
    mapGet "explorer" (initWorld testReg).floatingPanelsByViewId = none ∧
    (initWorld testReg).registry "explorer" = some ⟨"Explorer", true⟩ ∧
    ((openFloatingPanel { viewId := "explorer" } (initWorld testReg)).2.openCalls =
      (initWorld testReg).openCalls ++ [⟨400, 300⟩] ∧
    (floatViewRun (some "explorer") none (initWorld testReg)).openCalls =
      (initWorld testReg).openCalls ++ [⟨500, 400⟩]) :=
  ⟨rfl, rfl, by decide,
    openFloatingPanel_default_bounds (initWorld testReg) { viewId := "explorer" }
      rfl rfl (initWorld testReg) "explorer" ⟨"Explorer", true⟩ none (by decide) rfl⟩

end FloatingPanelSpec
